import Mathlib

/-!
Verification of the ppgs inference-time feature pipeline against its source
(src/ppgs/core.py and src/ppgs/preprocess/encodec.py), via a shallow
embedding: Python strings are character lists, tensors are abstracted to
their shapes or instance tags, and the stateful function-attribute caches
are embedded as explicit state-passing step functions.
-/

namespace PPGS

/-- Parameter names and path strings are modelled as character lists. -/
abbrev PName := List Char

/-- A serialized parameter mapping (an ordered dict in Python): ordered
(name, shape) pairs, where a tensor is abstracted to its shape, coded as a
single natural number. -/
abbrev StateDict := List (PName × Nat)

/-- The key list of a state dict. -/
def keysOf (sd : StateDict) : List PName := sd.map Prod.fst

/-- Dictionary lookup by key (first matching entry). -/
def lookupKey : StateDict → PName → Option Nat
  | [], _ => none
  | (k', n) :: rest, k => if k' = k then some n else lookupKey rest k

/-- Whether a state dict has an entry for key `k`. -/
def containsKey (sd : StateDict) (k : PName) : Bool := (lookupKey sd k).isSome

/-- Keys the model expects that the state dict lacks (torch "Missing key(s)"). -/
def missingKeys (expected sd : StateDict) : List PName :=
  (keysOf expected).filter (fun k => !(containsKey sd k))

/-- Keys the state dict has that the model does not (torch "Unexpected key(s)"). -/
def unexpectedKeys (expected sd : StateDict) : List PName :=
  (keysOf sd).filter (fun k => !(containsKey expected k))

/-- Keys present on both sides but whose tensor shapes differ
(torch "size mismatch for ..."). -/
def sizeMismatchKeys (expected sd : StateDict) : List PName :=
  expected.filterMap (fun p =>
    match lookupKey sd p.fst with
    | some m => if m = p.snd then none else some p.fst
    | none => none)

/-- The content of the single RuntimeError torch raises when strict state-dict
binding fails: missing keys, unexpected keys and size mismatches. -/
structure LoadFailure where
  missing : List PName
  unexpected : List PName
  sizeMismatch : List PName
deriving DecidableEq

/-- A failure is a structural parameter-name mismatch when some key is missing
or unexpected (the "wrong key" conditions); pure size mismatches are not
structural name mismatches. -/
def LoadFailure.isStructural (f : LoadFailure) : Bool :=
  !f.missing.isEmpty || !f.unexpected.isEmpty

/-- Python exceptions relevant to the binding site, tagged by class:
`loadFailure` is the RuntimeError raised by Module.load_state_dict;
`otherError` stands for any exception that is not a RuntimeError. -/
inductive PyError where
  | loadFailure (f : LoadFailure)
  | otherError (msg : PName)
deriving DecidableEq

/-- Whether an exception is (a subclass of) RuntimeError, i.e. whether the
`except RuntimeError` clause in core.py line 33 catches it. -/
def PyError.isRuntimeError : PyError → Bool
  | .loadFailure _ => true
  | .otherError _ => false

/-- Embedding of torch.nn.Module.load_state_dict with strict=True (the external
collaborator called at core.py lines 32 and 36): it collects missing keys,
unexpected keys and size mismatches, succeeds when there are none, and raises
one RuntimeError carrying all of them otherwise. -/
def load_state_dict (expected sd : StateDict) : Except PyError Unit :=
  if (missingKeys expected sd).isEmpty && (unexpectedKeys expected sd).isEmpty
      && (sizeMismatchKeys expected sd).isEmpty
  then Except.ok ()
  else Except.error (PyError.loadFailure
    ⟨missingKeys expected sd, unexpectedKeys expected sd, sizeMismatchKeys expected sd⟩)

/-- The distributed-training marker prepended to every parameter name when a
model is saved from a replicated wrapper (the module-dot pattern). -/
def ddpPre : PName := "module.".toList

/-- Strip the distributed-training marker from one parameter name when present. -/
def stripDdp (k : PName) : PName :=
  if k.take ddpPre.length = ddpPre then k.drop ddpPre.length else k

/-- Modelled from the spec: `ppgs.load.ddp_to_single_state_dict` (called at
core.py line 35) is not among the provided sources; the spec (section 4.3 and
glossary) describes it as stripping the known distributed-training marker from
every parameter name of the state dict. -/
def ddp_to_single_state_dict (sd : StateDict) : StateDict :=
  sd.map (fun p => (stripDdp p.fst, p.snd))

/-- Outcome of the guarded binding block (core.py lines 31-36). -/
inductive ApplyOutcome where
  | okDirect
  | okRetry
  | errNoRetry (e : PyError)
  | errRetry (first second : PyError)
deriving DecidableEq

/-- The try/except block of from_audio (core.py lines 31-36), parameterized by
the outcome of the first direct binding attempt: a RuntimeError from the first
attempt triggers exactly one remapped retry; the retry's failure is raised
(with the first error attached as context by Python's exception chaining);
an exception of any other class propagates unchanged with no retry. -/
def bindWithRemap (expected sd : StateDict) (firstAttempt : Except PyError Unit) :
    ApplyOutcome :=
  match firstAttempt with
  | Except.ok _ => ApplyOutcome.okDirect
  | Except.error e =>
    if e.isRuntimeError then
      match load_state_dict expected (ddp_to_single_state_dict sd) with
      | Except.ok _ => ApplyOutcome.okRetry
      | Except.error e2 => ApplyOutcome.errRetry e e2
    else ApplyOutcome.errNoRetry e

/-- The complete checkpoint application step of from_audio: direct binding
followed by the guarded remap retry. -/
def applyCheckpoint (expected sd : StateDict) : ApplyOutcome :=
  bindWithRemap expected sd (load_state_dict expected sd)

/-- Whether the remap-and-retry fallback fired. -/
def ApplyOutcome.retried : ApplyOutcome → Bool
  | .okRetry => true
  | .errRetry _ _ => true
  | _ => false

/-- Whether the checkpoint was successfully bound. -/
def ApplyOutcome.succeeded : ApplyOutcome → Bool
  | .okDirect => true
  | .okRetry => true
  | _ => false

/-- The function-attribute cache of from_audio (core.py lines 38-40): the
checkpoint path and gpu attributes form the cache key, and the model attribute
holds the loaded instance, abstracted to an instance tag. The whole cache is
`Option CacheEntry`: `none` embeds the state before the first call, when
`hasattr(from_audio, 'model')` is false. -/
structure CacheEntry where
  checkpoint : PName
  gpu : Option Nat
  model : Nat
deriving DecidableEq

/-- The invalidation test of core.py lines 26-28: construct when no model is
cached yet, or when the cached checkpoint or gpu differs from the arguments. -/
def needsLoad : Option CacheEntry → PName → Option Nat → Bool
  | none, _, _ => true
  | some e, ck, g => decide (e.checkpoint ≠ ck ∨ e.gpu ≠ g)

/-- One from_audio call (core.py lines 26-40, 47) with construction always
succeeding, tracking constructor runs: `fresh` is the next unused instance tag
and doubles as the count of constructor runs so far. Returns the new cache
state, the new tag counter, and the instance the forward pass runs on. -/
def from_audio (st : Option CacheEntry) (fresh : Nat) (ck : PName)
    (g : Option Nat) : Option CacheEntry × Nat × Nat :=
  match st with
  | none => (some ⟨ck, g, fresh⟩, fresh + 1, fresh)
  | some e =>
    if e.checkpoint ≠ ck ∨ e.gpu ≠ g then (some ⟨ck, g, fresh⟩, fresh + 1, fresh)
    else (some e, fresh, e.model)

/-- Run a sequence of from_audio calls, threading the cache state and the
constructor-run counter. -/
def runFromAudio : Option CacheEntry → Nat → List (PName × Option Nat) →
    Option CacheEntry × Nat
  | st, fresh, [] => (st, fresh)
  | st, fresh, (ck, g) :: rest =>
    let r := from_audio st fresh ck g
    runFromAudio r.fst r.snd.fst rest

/-- Constructor runs demanded by the calls after a call with identity `prev`:
one per call whose identity differs from the immediately preceding call's. -/
def loadRunsFrom (prev : PName × Option Nat) : List (PName × Option Nat) → Nat
  | [] => 0
  | c :: rest => (if c = prev then 0 else 1) + loadRunsFrom c rest

/-- Constructor runs demanded by a call sequence starting from an empty cache:
one for the first call, plus one per change of identity between consecutive
calls. -/
def loadRuns : List (PName × Option Nat) → Nat
  | [] => 0
  | c :: rest => 1 + loadRunsFrom c rest

/-- One from_audio call with a fallible constructor (core.py lines 30-37: the
checkpoint read, the guarded binding, and device placement may all raise). The
`load` argument is the outcome of that whole construction. The three cache
attributes are only assigned (lines 38-40) after `load` succeeds; on failure
the exception propagates and the cache state is returned unchanged. -/
def from_audioTry (st : Option CacheEntry) (ck : PName) (g : Option Nat)
    (load : Except PyError Nat) : Option CacheEntry × Except PyError Nat :=
  match st with
  | none =>
    match load with
    | Except.error err => (none, Except.error err)
    | Except.ok m => (some ⟨ck, g, m⟩, Except.ok m)
  | some e =>
    if e.checkpoint ≠ ck ∨ e.gpu ≠ g then
      match load with
      | Except.error err => (some e, Except.error err)
      | Except.ok m => (some ⟨ck, g, m⟩, Except.ok m)
    else (some e, Except.ok e.model)

/-- One from_audio call tracking the explicit `model` argument (core.py lines
16, 22-23): when it is `none`, the default ppgs.MODEL is used; the chosen
instance is only consulted (loaded and placed) when the cache misses. On a
cache hit the forward pass runs on the cached instance. Returns the new cache
state and the instance the forward pass runs on. -/
def from_audioArg (st : Option CacheEntry) (modelArg : Option Nat)
    (defaultModel : Nat) (ck : PName) (g : Option Nat) :
    Option CacheEntry × Nat :=
  let model := match modelArg with
    | none => defaultModel
    | some m => m
  match st with
  | none => (some ⟨ck, g, model⟩, model)
  | some e =>
    if e.checkpoint ≠ ck ∨ e.gpu ≠ g then (some ⟨ck, g, model⟩, model)
    else (some e, e.model)

/-- Result of core.resample: the returned audio plus the number of
torchaudio Resample transforms constructed during the call. -/
structure Resampled (α : Type) where
  output : α
  builtCount : Nat
deriving DecidableEq

/-- Embedding of core.resample (core.py lines 99-105): when the source rate
equals the target rate the input object itself is returned and no transform is
constructed; otherwise a fresh transform is constructed (there is no cache in
this function) and applied. `applyNew` abstracts a freshly built transform. -/
def resample {α : Type} (audio : α) (applyNew : Nat → Nat → α → α)
    (sample_rate target_rate : Nat) : Resampled α :=
  if sample_rate = target_rate then ⟨audio, 0⟩
  else ⟨applyNew sample_rate target_rate audio, 1⟩

/-- The resampler cache of preprocess/encodec.from_audios (encodec.py lines
31-40): the cached source rate and the cached transform, abstracted to an
instance tag. -/
structure ResamplerState where
  sample_rate : Nat
  transformTag : Nat
deriving DecidableEq

/-- One pass through the resampler-cache block of encodec.from_audios:
rebuild when nothing is cached or the call's source rate differs from the
cached one; otherwise reuse the cached transform. `fresh` is the next unused
transform tag; the Bool reports whether a transform was constructed. -/
def from_audiosResampler (st : Option ResamplerState) (fresh : Nat)
    (sample_rate : Nat) : ResamplerState × Nat × Bool :=
  match st with
  | none => (⟨sample_rate, fresh⟩, fresh + 1, true)
  | some c =>
    if sample_rate ≠ c.sample_rate then (⟨sample_rate, fresh⟩, fresh + 1, true)
    else (c, fresh, false)

/-- Embedding of torch.nn.functional.interpolate in mode nearest along the
frame axis (the external collaborator called at encodec.py lines 57-61):
output frame `i` of `size` samples input frame `⌊i * length / size⌋`. -/
def interpolate (input : List Int) (size : Nat) : List Int :=
  (List.range size).map (fun i => input.getD (i * input.length / size) 0)

/-- Embedding of the frame-producing dataflow of encodec.from_audios
(encodec.py lines 28-61): the expected length is computed from the original
sample count and the hop size (line 30) before resampling; the audio is
resampled to 24 kHz and encoded (both abstracted, since only the frame axis
matters here); the encoded frames are interpolated to exactly the expected
length. -/
def encodec_from_audios (audio : List Int) (hopsize : Nat)
    (resampleTo24k encode : List Int → List Int) : List Int :=
  let expected_length := audio.length / hopsize
  interpolate (encode (resampleTo24k audio)) expected_length

/-- A representation known to the pipeline: its name and its frame-count
function (hop size and input sample count to output frame count). -/
structure RepresentationSpec where
  name : PName
  frameCount : Nat → Nat → Nat

/-- Modelled from the spec: the w2v2fb extractor (the default representation,
named in spec section 6) is not among the provided sources; the spec (section
3, invariant 4) fixes its frame count to sample_count / hop_size up to one
frame, modelled as floor division. -/
def w2v2fbSpec : RepresentationSpec := ⟨"w2v2fb".toList, fun h n => n / h⟩

/-- The encodec representation: its frame count is exactly
sample_count / hop_size, as proved from encodec_from_audios below. -/
def encodecSpec : RepresentationSpec := ⟨"encodec".toList, fun h n => n / h⟩

/-- Modelled from the spec: the representation registry (spec sections 2 and
4.1; the dispatch module is not among the provided sources) binds the
representation names of spec section 6 to their extractors. -/
def registry : List RepresentationSpec := [w2v2fbSpec, encodecSpec]

/-- A filesystem path: parent directory components plus the final component. -/
structure Path where
  dir : List PName
  base : PName
deriving DecidableEq

/-- Index of the first occurrence of a character in a list. -/
def firstIdx (c : Char) : List Char → Option Nat
  | [] => none
  | a :: rest => if a = c then some 0 else (firstIdx c rest).map (· + 1)

/-- Length of the pathlib suffix of a file name: the part from the last dot,
except that a dot in first or last position yields no suffix. -/
def sufLen (name : PName) : Nat :=
  match firstIdx '.' name.reverse with
  | none => 0
  | some j => if 1 ≤ j ∧ j + 1 < name.length then j + 1 else 0

/-- Embedding of pathlib.PurePath.with_suffix on the final path component
(the external collaborator called at core.py line 81): replace the existing
suffix when there is one, append otherwise. -/
def withSuf (name : PName) (suf : PName) : PName :=
  let k := sufLen name
  if k = 0 then name ++ suf else name.take (name.length - k) ++ suf

/-- pathlib.Path.with_suffix: the directory components are untouched. -/
def Path.with_suffix (p : Path) (suf : PName) : Path :=
  ⟨p.dir, withSuf p.base suf⟩

/-- The canonical tensor extension used at core.py line 81. -/
def ptExt : PName := ".pt".toList

/-- Embedding of from_files_to_files (core.py lines 73-91), returning the
ordered list of (audio_file, output_file) pairs on which from_file_to_file is
invoked: defaulted output paths are the inputs with the canonical tensor
extension (line 81), and the loop iterates over zip(audio_files, output_files)
(line 90), which silently stops at the shorter list. -/
def from_files_to_files (audio_files : List Path)
    (output_files : Option (List Path)) : List (Path × Path) :=
  let outs := match output_files with
    | none => audio_files.map (fun f => Path.with_suffix f ptExt)
    | some fs => fs
  audio_files.zip outs

/-- Stripping the distributed-training marker undoes prepending it. -/
theorem stripDdp_pre (k : PName) : stripDdp (ddpPre ++ k) = k := by
  simp [stripDdp, List.take_left, List.drop_left]

/-- Remapping a state dict whose names were all prepended with the marker
recovers the original state dict. -/
theorem ddp_strip_of_pre (sd : StateDict) :
    ddp_to_single_state_dict (sd.map (fun p => (ddpPre ++ p.fst, p.snd))) = sd := by
  induction sd with
  | nil => rfl
  | cons p t ih =>
    simpa [ddp_to_single_state_dict, stripDdp_pre] using ih

/-- A state dict has an entry for a key exactly when the key is among its keys. -/
theorem containsKey_iff (sd : StateDict) (k : PName) :
    containsKey sd k = true ↔ k ∈ keysOf sd := by
  induction sd with
  | nil => simp [containsKey, lookupKey, keysOf]
  | cons p t ih =>
    by_cases hk : p.fst = k
    · simp [containsKey, lookupKey, keysOf, hk]
    · simp only [containsKey, lookupKey, keysOf, List.map_cons, List.mem_cons,
        if_neg hk] at ih ⊢
      rw [ih]
      constructor
      · exact Or.inr
      · rintro (h | h)
        · exact absurd h.symm hk
        · exact h

/-- On a dict with no repeated keys, lookup of a member's key returns its value. -/
theorem lookup_nodup {sd : StateDict} {k : PName} {n : Nat}
    (hnd : (keysOf sd).Nodup) (h : (k, n) ∈ sd) : lookupKey sd k = some n := by
  induction sd with
  | nil => simp at h
  | cons p t ih =>
    rcases List.mem_cons.mp h with h | h
    · simp [lookupKey, ← h]
    · have hk : k ∈ keysOf t := by
        unfold keysOf
        exact List.mem_map_of_mem Prod.fst h
      have hne : p.fst ≠ k := by
        intro he
        have : p.fst ∉ keysOf t := (List.nodup_cons.mp hnd).1
        exact this (he ▸ hk)
      rw [lookupKey, if_neg hne]
      exact ih (List.nodup_cons.mp hnd).2 h

/-- Binding a duplicate-free state dict onto the model it was read from
succeeds. -/
theorem load_state_dict_self {sd : StateDict} (hnd : (keysOf sd).Nodup) :
    load_state_dict sd sd = Except.ok () := by
  have h1 : missingKeys sd sd = [] := by
    rw [missingKeys, List.filter_eq_nil_iff]
    intro k hk
    simp [(containsKey_iff sd k).mpr hk]
  have h2 : unexpectedKeys sd sd = [] := by
    rw [unexpectedKeys, List.filter_eq_nil_iff]
    intro k hk
    simp [(containsKey_iff sd k).mpr hk]
  have h3 : sizeMismatchKeys sd sd = [] := by
    rw [sizeMismatchKeys, List.filterMap_eq_nil_iff]
    intro p hp
    rw [lookup_nodup hnd (by simpa using hp)]
    simp
  rw [load_state_dict, if_pos (by simp [h1, h2, h3])]

/-- When any of the three failure lists is nonempty, strict binding raises the
RuntimeError carrying all three. -/
theorem load_state_dict_error_of (expected sd : StateDict)
    (h : missingKeys expected sd ≠ [] ∨ unexpectedKeys expected sd ≠ [] ∨
      sizeMismatchKeys expected sd ≠ []) :
    load_state_dict expected sd = Except.error (PyError.loadFailure
      ⟨missingKeys expected sd, unexpectedKeys expected sd,
        sizeMismatchKeys expected sd⟩) := by
  rw [load_state_dict, if_neg]
  simp only [Bool.and_eq_true, List.isEmpty_iff]
  tauto

/-- Every binding failure of load_state_dict is a RuntimeError. -/
theorem load_error_runtime {expected sd : StateDict} {e : PyError}
    (h : load_state_dict expected sd = Except.error e) : e.isRuntimeError = true := by
  rw [load_state_dict] at h
  split at h
  · exact absurd h (by simp)
  · simp only [Except.error.injEq] at h
    rw [← h]
    rfl

/-- Every nonempty list of names has a member of maximal length. -/
theorem exists_maxlen {K : List PName} (h : K ≠ []) :
    ∃ k ∈ K, ∀ k' ∈ K, k'.length ≤ k.length := by
  induction K with
  | nil => exact absurd rfl h
  | cons a t ih =>
    cases t with
    | nil => exact ⟨a, by simp, by simp⟩
    | cons b u =>
      obtain ⟨m, hm, hmax⟩ := ih (by simp)
      rcases Nat.le_total a.length m.length with hle | hle
      · refine ⟨m, List.mem_cons_of_mem a hm, ?_⟩
        intro k' hk'
        rcases List.mem_cons.mp hk' with rfl | hk'
        · exact hle
        · exact hmax k' hk'
      · refine ⟨a, List.mem_cons_self a _, ?_⟩
        intro k' hk'
        rcases List.mem_cons.mp hk' with rfl | hk'
        · exact Nat.le_refl _
        · exact Nat.le_trans (hmax k' hk') hle

/-- Prepending the marker to every key of a nonempty model's own state dict
always produces unexpected keys on direct binding. -/
theorem unexpected_ne_nil_of_pre {expected : StateDict} (hne : expected ≠ []) :
    unexpectedKeys expected (expected.map (fun p => (ddpPre ++ p.fst, p.snd))) ≠ [] := by
  have hkeys : keysOf (expected.map (fun p => (ddpPre ++ p.fst, p.snd)))
      = (keysOf expected).map (fun k => ddpPre ++ k) := by
    simp [keysOf, List.map_map]
  have hK : keysOf expected ≠ [] := by
    simp only [keysOf, ne_eq, List.map_eq_nil_iff]
    exact hne
  obtain ⟨k, hk, hmax⟩ := exists_maxlen hK
  have hmem : (ddpPre ++ k) ∈ keysOf (expected.map (fun p => (ddpPre ++ p.fst, p.snd))) := by
    rw [hkeys]
    exact List.mem_map_of_mem _ hk
  have hnot : (ddpPre ++ k) ∉ keysOf expected := by
    intro hmem'
    have hlen := hmax _ hmem'
    rw [List.length_append] at hlen
    have : ddpPre.length = 7 := by decide
    omega
  have hcontains : containsKey expected (ddpPre ++ k) = false := by
    cases hcb : containsKey expected (ddpPre ++ k)
    · rfl
    · exact absurd ((containsKey_iff expected _).mp hcb) hnot
  have humem : (ddpPre ++ k) ∈ unexpectedKeys expected
      (expected.map (fun p => (ddpPre ++ p.fst, p.snd))) := by
    rw [unexpectedKeys, List.mem_filter]
    exact ⟨hmem, by simp [hcontains]⟩
  exact List.ne_nil_of_mem humem

/-- Zipping a list with its own image pairs every element with its image. -/
theorem zip_map_self {α β : Type} (l : List α) (g : α → β) :
    l.zip (l.map g) = l.map (fun a => (a, g a)) := by
  induction l with
  | nil => rfl
  | cons a t ih => simp [ih]

/-- Constructor runs of a call sequence starting from a populated cache: one
per call whose identity differs from the previous one. -/
theorem runFromAudio_some (ids : List (PName × Option Nat)) :
    ∀ (ck : PName) (g : Option Nat) (m fresh : Nat),
    (runFromAudio (some ⟨ck, g, m⟩) fresh ids).snd = fresh + loadRunsFrom (ck, g) ids := by
  induction ids with
  | nil =>
    intro ck g m fresh
    simp [runFromAudio, loadRunsFrom]
  | cons c rest ih =>
    intro ck g m fresh
    obtain ⟨ck', g'⟩ := c
    by_cases h : ck' = ck ∧ g' = g
    · obtain ⟨h1, h2⟩ := h
      subst h1
      subst h2
      rw [runFromAudio]
      have hhit : from_audio (some ⟨ck', g', m⟩) fresh ck' g' = (some ⟨ck', g', m⟩, fresh, m) := by
        simp [from_audio]
      rw [hhit]
      rw [loadRunsFrom, if_pos rfl]
      simpa using ih ck' g' m fresh
    · rw [runFromAudio]
      have hmiss : from_audio (some ⟨ck, g, m⟩) fresh ck' g' =
          (some ⟨ck', g', fresh⟩, fresh + 1, fresh) := by
        rw [from_audio, if_pos]
        rcases Decidable.not_and_iff_or_not.mp h with h' | h'
        · exact Or.inl (fun he => h' he.symm)
        · exact Or.inr (fun he => h' he.symm)
      rw [hmiss]
      rw [loadRunsFrom, if_neg (by simp [Prod.ext_iff]; tauto)]
      rw [ih ck' g' fresh (fresh + 1)]
      omega

/-- C1 (counterexample): the claim that the constructor runs exactly once per
distinct (checkpoint, gpu) identity fails on the single-entry cache. The call
sequence A, B, A has two distinct identities but runs the constructor three
times, because the second A finds B in the cache and reconstructs. -/
theorem C1_counterexample :
    (runFromAudio none 0 [("a".toList, (none : Option Nat)), ("b".toList, none),
      ("a".toList, none)]).snd = 3 ∧
    ([("a".toList, (none : Option Nat)), ("b".toList, none),
      ("a".toList, none)].dedup).length = 2 := by
  decide

/-- C1 (amended): over any sequence of from_audio calls starting from the
empty cache, the constructor runs exactly once per maximal run of consecutive
equal identities: once for the first call and once per call whose
(checkpoint, gpu) identity differs from the immediately preceding call's; and
a call whose identity equals the cached one returns the identical cached
instance with no construction. -/
theorem C1_cache_per_run (ids : List (PName × Option Nat)) (e : CacheEntry)
    (fresh : Nat) :
    (runFromAudio none 0 ids).snd = loadRuns ids ∧
    from_audio (some e) fresh e.checkpoint e.gpu = (some e, fresh, e.model) := by
  constructor
  · cases ids with
    | nil => rfl
    | cons c rest =>
      obtain ⟨ck, g⟩ := c
      simp only [runFromAudio, from_audio]
      rw [runFromAudio_some rest ck g 0 1, loadRuns]
  · simp [from_audio]

/-- C2 (counterexample): the remap fallback is not restricted to structural
name mismatches. A state dict with the model's exact key but a wrong tensor
shape makes the first binding fail with a pure size-mismatch RuntimeError —
not a wrong-key condition — and the fallback fires anyway. -/
theorem C2_counterexample :
    (applyCheckpoint [("w".toList, 2)] [("w".toList, 3)]).retried = true ∧
    load_state_dict [("w".toList, 2)] [("w".toList, 3)] = Except.error
      (PyError.loadFailure ⟨[], [], ["w".toList]⟩) ∧
    LoadFailure.isStructural ⟨[], [], ["w".toList]⟩ = false :=
  ⟨by decide, by rfl, by decide⟩

/-- C2 (amended): the remap-and-retry fallback fires on every failure of the
first binding attempt — all load_state_dict failures are RuntimeErrors and the
handler catches the whole class, structural or not; only an exception that is
not a RuntimeError would propagate unchanged without firing the fallback. -/
theorem C2_fallback_on_any_runtime_error (expected sd : StateDict) (e : PyError)
    (he : e.isRuntimeError = false) :
    ((applyCheckpoint expected sd).retried = true ↔
      load_state_dict expected sd ≠ Except.ok ()) ∧
    bindWithRemap expected sd (Except.error e) = ApplyOutcome.errNoRetry e := by
  constructor
  · cases hres : load_state_dict expected sd with
    | ok u =>
      cases u
      simp [applyCheckpoint, bindWithRemap, hres, ApplyOutcome.retried]
    | error e1 =>
      have hrt := load_error_runtime hres
      rcases hsec : load_state_dict expected (ddp_to_single_state_dict sd) with u | e2
      · simp [applyCheckpoint, bindWithRemap, hres, hrt, hsec, ApplyOutcome.retried]
      · simp [applyCheckpoint, bindWithRemap, hres, hrt, hsec, ApplyOutcome.retried]
  · simp [bindWithRemap, he]

/-- C2 (witness): the amended statement at a concrete model, state dict and
non-RuntimeError exception. -/
theorem C2_fallback_witness :
    ((applyCheckpoint [("w".toList, 2)] [("w".toList, 3)]).retried = true ↔
      load_state_dict [("w".toList, 2)] [("w".toList, 3)] ≠ Except.ok ()) ∧
    bindWithRemap [("w".toList, 2)] [("w".toList, 3)]
      (Except.error (PyError.otherError [])) = ApplyOutcome.errNoRetry
      (PyError.otherError []) :=
  C2_fallback_on_any_runtime_error [("w".toList, 2)] [("w".toList, 3)]
    (PyError.otherError []) (by decide)

/-- C3 (counterexample): a CheckpointState whose keys are exactly the model's
parameter names each carrying the distributed-training marker, but whose
tensor shapes do not match, does not load even after the remap retry: the
stripped keys match but the second binding fails on the size mismatch. -/
theorem C3_counterexample :
    keysOf [("module.w".toList, 3)]
      = (keysOf [("w".toList, 2)]).map (fun k => ddpPre ++ k) ∧
    (applyCheckpoint [("w".toList, 2)] [("module.w".toList, 3)]).succeeded = false := by
  decide

/-- C3 (amended): for every model with a nonempty, duplicate-free parameter
set, applying the checkpoint equal to the model's own parameters (names and
shapes) with every name carrying the distributed-training marker succeeds
after exactly one remap retry; and applying a checkpoint whose keys match the
model neither directly nor after stripping fails after the retry, surfacing
both underlying binding errors. -/
theorem C3_remap_outcomes (expected sd bad : StateDict)
    (hne : expected ≠ [])
    (hnd : (keysOf expected).Nodup)
    (hsd : sd = expected.map (fun p => (ddpPre ++ p.fst, p.snd)))
    (hbad1 : missingKeys expected bad ≠ [] ∨ unexpectedKeys expected bad ≠ [])
    (hbad2 : missingKeys expected (ddp_to_single_state_dict bad) ≠ [] ∨
      unexpectedKeys expected (ddp_to_single_state_dict bad) ≠ []) :
    applyCheckpoint expected sd = ApplyOutcome.okRetry ∧
    ∃ e1 e2, applyCheckpoint expected bad = ApplyOutcome.errRetry e1 e2 ∧
      load_state_dict expected bad = Except.error e1 ∧
      load_state_dict expected (ddp_to_single_state_dict bad) = Except.error e2 := by
  constructor
  · subst hsd
    have hfail := load_state_dict_error_of expected
      (expected.map (fun p => (ddpPre ++ p.fst, p.snd)))
      (Or.inr (Or.inl (unexpected_ne_nil_of_pre hne)))
    simp only [applyCheckpoint, hfail, bindWithRemap, PyError.isRuntimeError,
      if_true, ddp_strip_of_pre, load_state_dict_self hnd]
  · have h1 := load_state_dict_error_of expected bad (by tauto)
    have h2 := load_state_dict_error_of expected
      (ddp_to_single_state_dict bad) (by tauto)
    refine ⟨_, _, ?_, h1, h2⟩
    simp only [applyCheckpoint, h1, bindWithRemap, PyError.isRuntimeError,
      if_true, h2]

/-- C3 (witness): the amended statement at a concrete model, a concrete
marker-carrying checkpoint of it, and a concrete unrelated checkpoint. -/
theorem C3_remap_witness :
    applyCheckpoint [("w".toList, 2)] [("module.w".toList, 2)] = ApplyOutcome.okRetry ∧
    ∃ e1 e2,
      applyCheckpoint [("w".toList, 2)] [("z".toList, 5)] = ApplyOutcome.errRetry e1 e2 ∧
      load_state_dict [("w".toList, 2)] [("z".toList, 5)] = Except.error e1 ∧
      load_state_dict [("w".toList, 2)] (ddp_to_single_state_dict [("z".toList, 5)])
        = Except.error e2 :=
  C3_remap_outcomes [("w".toList, 2)] [("module.w".toList, 2)] [("z".toList, 5)]
    (by decide) (by decide) (by decide) (by decide) (by decide)

/-- C4 (counterexample): with two inputs and one explicit output the call does
not fail: it processes the single zipped pair and silently drops the second
input. No arity check exists in from_files_to_files. -/
theorem C4_counterexample :
    from_files_to_files [⟨[], "a.wav".toList⟩, ⟨[], "b.wav".toList⟩]
      (some [⟨[], "x.pt".toList⟩])
      = [(⟨[], "a.wav".toList⟩, ⟨[], "x.pt".toList⟩)] ∧
    ([⟨[], "a.wav".toList⟩, ⟨[], "b.wav".toList⟩] : List Path).length
      ≠ ([⟨[], "x.pt".toList⟩] : List Path).length :=
  ⟨rfl, by decide⟩

/-- C4 (amended): when output_paths is given, from_files_to_files raises no
arity error: it processes exactly the positional zip of the two lists, i.e.
the first min(len(input_paths), len(output_paths)) pairs, silently ignoring
the remainder of the longer list. -/
theorem C4_zip_truncates (ins outs : List Path) :
    from_files_to_files ins (some outs) = ins.zip outs ∧
    (from_files_to_files ins (some outs)).length
      = min ins.length outs.length := by
  refine ⟨rfl, ?_⟩
  simp [from_files_to_files]

/-- C5 (confirmed): resampling with the source rate equal to the target rate
returns the input itself, constructing no transform. -/
theorem C5_resample_noop (α : Type) (audio : α)
    (applyNew : Nat → Nat → α → α) (r : Nat) :
    resample audio applyNew r r = ⟨audio, 0⟩ := by
  simp [resample]

/-- C6 (confirmed): the encodec representation produces exactly
sample_count / hop_size frames (the interpolation target computed before
resampling), and every registered representation's frame count is the floor of
sample_count / hop_size, hence within one frame of the exact ratio:
hop_size * frame_count ≤ sample_count < hop_size * (frame_count + 1). -/
theorem C6_frame_count (hopsize : Nat) (audio : List Int)
    (resampleTo24k encode : List Int → List Int) (rep : RepresentationSpec)
    (n : Nat) (hrep : rep ∈ registry) (hH : 0 < hopsize) :
    (encodec_from_audios audio hopsize resampleTo24k encode).length
      = audio.length / hopsize ∧
    (encodec_from_audios audio hopsize resampleTo24k encode).length
      = encodecSpec.frameCount hopsize audio.length ∧
    hopsize * rep.frameCount hopsize n ≤ n ∧
    n < hopsize * (rep.frameCount hopsize n + 1) := by
  have hfc : rep.frameCount = fun h n => n / h := by
    have : rep = w2v2fbSpec ∨ rep = encodecSpec := by
      simpa [registry] using hrep
    rcases this with rfl | rfl
    · rfl
    · rfl
  refine ⟨?_, ?_, ?_, ?_⟩
  · simp [encodec_from_audios, interpolate]
  · simp [encodec_from_audios, interpolate, encodecSpec]
  · rw [hfc]
    calc hopsize * (n / hopsize) = n / hopsize * hopsize := Nat.mul_comm _ _
      _ ≤ n := Nat.div_mul_le_self n hopsize
  · rw [hfc]
    have h := (Nat.div_lt_iff_lt_mul hH).mp (Nat.lt_succ_self (n / hopsize))
    rw [Nat.mul_comm]
    exact h

/-- C6 (witness): the frame-count statement at hop size 2, a five-sample
audio buffer and the w2v2fb representation. -/
theorem C6_frame_count_witness :
    w2v2fbSpec ∈ registry ∧ 0 < 2 ∧
    ((encodec_from_audios ([0, 0, 0, 0, 0] : List Int) 2 id id).length
        = ([0, 0, 0, 0, 0] : List Int).length / 2 ∧
      (encodec_from_audios ([0, 0, 0, 0, 0] : List Int) 2 id id).length
        = encodecSpec.frameCount 2 ([0, 0, 0, 0, 0] : List Int).length ∧
      2 * w2v2fbSpec.frameCount 2 5 ≤ 5 ∧
      5 < 2 * (w2v2fbSpec.frameCount 2 5 + 1)) :=
  ⟨by simp [registry], by decide,
    C6_frame_count 2 [0, 0, 0, 0, 0] id id w2v2fbSpec 5 (by simp [registry])
      (by decide)⟩

/-- C7 (confirmed): with output_paths omitted, every output is the
corresponding input with its extension replaced by the canonical tensor
extension, in the same directory, paired positionally with the inputs. -/
theorem C7_default_output_paths (ins : List Path) (f : Path) :
    from_files_to_files ins none
      = ins.map (fun g => (g, g.with_suffix ptExt)) ∧
    (f.with_suffix ptExt).dir = f.dir ∧
    ∃ s, (f.with_suffix ptExt).base = s ++ ptExt := by
  refine ⟨?_, rfl, ?_⟩
  · simp only [from_files_to_files]
    exact zip_map_self ins (fun g => g.with_suffix ptExt)
  · simp only [Path.with_suffix, withSuf]
    split
    · exact ⟨f.base, rfl⟩
    · exact ⟨_, rfl⟩

/-- C8 (counterexample): core.resample keeps no cached transform: two
successive calls with the same source rate (2 to target 1) construct one
transform each, two in total, instead of reusing a cached one. -/
theorem C8_counterexample :
    (resample ([0] : List Int) (fun _ _ a => a) 2 1).builtCount
      + (resample ([0] : List Int) (fun _ _ a => a) 2 1).builtCount = 2 := by
  decide

/-- C8 (amended): the resampler cache keyed by source rate lives in the
encodec preprocessing path: a call with the cached source rate reuses the
cached transform with no construction, and a call with a new source rate (or
the first call) constructs a replacement; the core resample utility keeps no
cache and constructs a fresh transform on every call whose source rate
differs from the target. -/
theorem C8_split_caching (c : ResamplerState) (fresh r t : Nat) (a : List Int)
    (applyNew : Nat → Nat → List Int → List Int)
    (hr : r ≠ c.sample_rate) (ht : r ≠ t) :
    from_audiosResampler (some c) fresh c.sample_rate = (c, fresh, false) ∧
    from_audiosResampler (some c) fresh r = (⟨r, fresh⟩, fresh + 1, true) ∧
    from_audiosResampler none fresh r = (⟨r, fresh⟩, fresh + 1, true) ∧
    (resample a applyNew r t).builtCount = 1 := by
  refine ⟨?_, ?_, rfl, ?_⟩
  · simp [from_audiosResampler]
  · simp [from_audiosResampler, hr]
  · simp [resample, ht]

/-- C8 (witness): the amended statement at concrete rates. -/
theorem C8_split_caching_witness :
    from_audiosResampler (some ⟨5, 0⟩) 1 5 = (⟨5, 0⟩, 1, false) ∧
    from_audiosResampler (some ⟨5, 0⟩) 1 6 = (⟨6, 1⟩, 2, true) ∧
    from_audiosResampler none 1 6 = (⟨6, 1⟩, 2, true) ∧
    (resample ([0] : List Int) (fun _ _ a => a) 6 1).builtCount = 1 :=
  C8_split_caching ⟨5, 0⟩ 1 6 1 [0] (fun _ _ a => a) (by decide) (by decide)

/-- C9 (confirmed): when construction is needed and fails, the error
propagates, the cache state is returned exactly as it was, and a subsequent
call with the same identity still needs (and so re-attempts) construction;
the cache attributes are assigned only on construction success. -/
theorem C9_no_cache_update_on_failure (st : Option CacheEntry) (ck : PName)
    (g : Option Nat) (err : PyError) (m : Nat)
    (h : needsLoad st ck g = true) :
    from_audioTry st ck g (Except.error err) = (st, Except.error err) ∧
    needsLoad (from_audioTry st ck g (Except.error err)).fst ck g = true ∧
    from_audioTry st ck g (Except.ok m) = (some ⟨ck, g, m⟩, Except.ok m) := by
  cases st with
  | none => exact ⟨rfl, rfl, rfl⟩
  | some e =>
    have hcond : e.checkpoint ≠ ck ∨ e.gpu ≠ g := by
      simpa [needsLoad] using h
    refine ⟨?_, ?_, ?_⟩
    · simp [from_audioTry, hcond]
    · simp [from_audioTry, needsLoad, hcond]
    · simp [from_audioTry, hcond]

/-- C9 (witness): the statement at the empty cache and a concrete failure. -/
theorem C9_no_cache_update_witness :
    from_audioTry none ("c".toList) none (Except.error (PyError.otherError []))
      = (none, Except.error (PyError.otherError [])) ∧
    needsLoad (from_audioTry none ("c".toList) none
      (Except.error (PyError.otherError []))).fst ("c".toList) none = true ∧
    from_audioTry none ("c".toList) none (Except.ok 7)
      = (some ⟨"c".toList, none, 7⟩, Except.ok 7) :=
  C9_no_cache_update_on_failure none ("c".toList) none (PyError.otherError []) 7
    (by decide)

/-- C10 (confirmed): on a cache hit the explicitly passed model argument is
ignored — the forward pass runs on the cached instance whatever was passed —
and on a cache miss the passed model is the one loaded and cached. -/
theorem C10_model_arg_ignored_on_hit (e : CacheEntry) (ma : Option Nat)
    (d : Nat) (st : Option CacheEntry) (ck2 : PName) (g2 : Option Nat)
    (m2 d2 : Nat) (hmiss : needsLoad st ck2 g2 = true) :
    from_audioArg (some e) ma d e.checkpoint e.gpu = (some e, e.model) ∧
    from_audioArg st (some m2) d2 ck2 g2 = (some ⟨ck2, g2, m2⟩, m2) := by
  constructor
  · simp [from_audioArg]
  · cases st with
    | none => rfl
    | some e2 =>
      have hcond : e2.checkpoint ≠ ck2 ∨ e2.gpu ≠ g2 := by
        simpa [needsLoad] using hmiss
      simp [from_audioArg, hcond]

/-- C10 (witness): the statement at a concrete populated cache with an
explicitly passed model, and a concrete miss. -/
theorem C10_model_arg_witness :
    from_audioArg (some ⟨"c".toList, none, 3⟩) (some 9) 0 ("c".toList) none
      = (some ⟨"c".toList, none, 3⟩, 3) ∧
    from_audioArg none (some 5) 0 ("d".toList) none
      = (some ⟨"d".toList, none, 5⟩, 5) :=
  C10_model_arg_ignored_on_hit ⟨"c".toList, none, 3⟩ (some 9) 0 none
    ("d".toList) none 5 0 (by decide)

end PPGS
